import Mathlib

/-!
Verification of the veg-web client against its specification.

The development shallowly embeds the two source files:
* `src/utils/geo.ts` — `haversineKm`, `etaSec`, `formatEta`;
* `src/App.tsx` — the venue filter/sort pipeline, the upvote mutation,
  custom-origin persistence in `localStorage`, and origin resolution.

JavaScript numbers are modelled as real numbers (`ℝ`); the places where
JavaScript's non-finite values (`NaN`, `±Infinity`) matter are modelled
explicitly with the `JSNum` type.  `Math.round x` is `⌊x + 1/2⌋` (round
half toward positive infinity), which is exactly JavaScript's semantics.
-/

namespace VegWeb

open Real

/-- Geographic point, `type LatLng = { lat: number; lng: number }`. -/
structure LatLng where
  lat : ℝ
  lng : ℝ

/-- Degree-to-radian conversion, the local `toRad` in `haversineKm`. -/
noncomputable def toRad (x : ℝ) : ℝ := x * Real.pi / 180

/-- Great-circle distance from `src/utils/geo.ts`:
Earth radius 6371 km, haversine formula, `2 * R * asin (sqrt s)`. -/
noncomputable def haversineKm (a b : LatLng) : ℝ :=
  let R : ℝ := 6371
  let dLat := toRad (b.lat - a.lat)
  let dLng := toRad (b.lng - a.lng)
  let s :=
    Real.sin (dLat / 2) ^ 2 +
      Real.cos (toRad a.lat) * Real.cos (toRad b.lat) * Real.sin (dLng / 2) ^ 2
  2 * R * Real.arcsin (Real.sqrt s)

/-- Travel mode, the `'walk' | 'bike'` union in `etaSec`. -/
inductive Mode where
  | walk
  | bike
deriving DecidableEq

/-- JavaScript `Math.round`: round half toward positive infinity. -/
noncomputable def mathRound (x : ℝ) : ℤ := ⌊x + 1 / 2⌋

/-- Assumed speed in km/h: the ternary `mode === 'walk' ? 4.5 : 15`. -/
def Mode.speed : Mode → ℝ
  | .walk => 4.5
  | .bike => 15

/-- Constant-speed ETA from `src/utils/geo.ts`:
`Math.max(60, Math.round((distKm / v) * 3600))` with `v = 4.5` km/h for
walking and `15` km/h for cycling. -/
noncomputable def etaSec (distKm : ℝ) (mode : Mode) : ℤ :=
  let v : ℝ := mode.speed
  max 60 (mathRound (distKm / v * 3600))

/-- Minute display from `src/utils/geo.ts`:
`m = Math.round(sec / 60)`, `"1 分鐘內"` when `m ≤ 1`, else `` `${m} 分` ``. -/
noncomputable def formatEta (sec : ℝ) : String :=
  let m := mathRound (sec / 60)
  if m ≤ 1 then "1 分鐘內" else toString m ++ " 分"

/- ===== helper lemmas about the geo functions ===== -/

/-- The haversine `s`-term is symmetric in its two endpoints. -/
theorem haversineKm_comm (a b : LatLng) : haversineKm a b = haversineKm b a := by
  unfold haversineKm toRad
  have e1 : (a.lat - b.lat) * Real.pi / 180 / 2 =
      -((b.lat - a.lat) * Real.pi / 180 / 2) := by ring
  have e2 : (a.lng - b.lng) * Real.pi / 180 / 2 =
      -((b.lng - a.lng) * Real.pi / 180 / 2) := by ring
  simp only
  rw [e1, e2, Real.sin_neg, Real.sin_neg]
  ring_nf

/-- The haversine distance from a point to itself is zero. -/
theorem haversineKm_self (a : LatLng) : haversineKm a a = 0 := by
  unfold haversineKm toRad
  simp

/-- Walking ETA at distance zero is the 60-second floor. -/
theorem etaSec_zero : etaSec 0 .walk = 60 := by
  unfold etaSec mathRound
  norm_num

/-- `mathRound` is monotone. -/
theorem mathRound_mono {x y : ℝ} (h : x ≤ y) : mathRound x ≤ mathRound y := by
  unfold mathRound
  exact Int.floor_le_floor (by linarith)

/-- CLAIM C5: in walk mode `etaSec` is at least 60 on every non-negative
distance, and it is non-decreasing in the distance. -/
theorem etaSec_walk_floor_and_mono (d d1 d2 : ℝ) :
    (0 ≤ d → 60 ≤ etaSec d .walk) ∧
      (d1 ≤ d2 → etaSec d1 .walk ≤ etaSec d2 .walk) := by
  constructor
  · intro _
    exact le_max_left _ _
  · intro h
    unfold etaSec
    simp only [Mode.speed]
    refine max_le_max le_rfl (mathRound_mono ?_)
    have e : ∀ z : ℝ, z / 4.5 * 3600 = z * 800 := by intro z; ring
    rw [e, e]
    linarith

/-- Witness for C5 at distances 0 and 1. -/
theorem etaSec_walk_floor_and_mono_witness :
    60 ≤ etaSec 0 .walk ∧ etaSec 0 .walk ≤ etaSec 1 .walk :=
  ⟨(etaSec_walk_floor_and_mono 0 0 1).1 (by norm_num),
   (etaSec_walk_floor_and_mono 0 0 1).2 (by norm_num)⟩

/-- CLAIM C6: the haversine distance is symmetric and vanishes on the
diagonal. -/
theorem haversineKm_symm_and_self (a b c : LatLng) :
    haversineKm a b = haversineKm b a ∧ haversineKm c c = 0 :=
  ⟨haversineKm_comm a b, haversineKm_self c⟩

/- ===== venue list, filter and sort (src/App.tsx) ===== -/

/-- Venue row as selected from the backend (`type Venue` in `App.tsx`). -/
structure Venue where
  id : String
  name : String
  veg_type : Option String
  price_bin : Option String
  reco_count : ℤ
  lat : ℝ
  lng : ℝ

/-- A venue augmented with the distance and ETA computed in `filtered`:
`{ ...v, _distKm: distKm, _etaSec: sec }`. -/
structure Row where
  venue : Venue
  distKm : ℝ
  etaS : ℤ

/-- The augmented row built for one venue inside `filtered`. -/
noncomputable def mkRow (o : LatLng) (v : Venue) : Row :=
  { venue := v
    distKm := haversineKm o ⟨v.lat, v.lng⟩
    etaS := etaSec (haversineKm o ⟨v.lat, v.lng⟩) .walk }

/-- The sort comparator `(a, b) => a._etaSec - b._etaSec || b.reco_count -
a.reco_count` read as the total preorder "compares ≤ 0": ascending ETA,
ties broken by descending `reco_count`. -/
def rowLE (a b : Row) : Bool :=
  a.etaS < b.etaS || (a.etaS == b.etaS && b.venue.reco_count ≤ a.venue.reco_count)

/-- The `filtered` pipeline for a non-null origin: map to augmented rows,
keep rows with `_etaSec <= minutes * 60 || minutes >= 999`, then stable-sort
with the comparator (JavaScript `Array.prototype.sort` is stable). -/
noncomputable def filteredRows (venues : List Venue) (o : LatLng) (minutes : ℤ) :
    List Row :=
  let rows := venues.map (fun v => mkRow o v)
  let within := rows.filter (fun r => r.etaS ≤ minutes * 60 || minutes ≥ 999)
  within.mergeSort rowLE

/-- The complete `filtered` memo: with no origin the venue list is returned
unchanged, otherwise the augmented, filtered and sorted rows. -/
noncomputable def filtered (venues : List Venue) (origin : Option LatLng)
    (minutes : ℤ) : List Venue ⊕ List Row :=
  match origin with
  | none => Sum.inl venues
  | some o => Sum.inr (filteredRows venues o minutes)

/- ===== the upvote mutation (src/App.tsx) ===== -/

/-- The `setVenues` patch applied after a successful `fn_upvote` call:
`prev.map((x) => (x.id === id ? { ...x, reco_count: newCount } : x))`. -/
def upvoteApply (venues : List Venue) (id : String) (newCount : ℤ) : List Venue :=
  venues.map (fun x => if x.id = id then { x with reco_count := newCount } else x)

/-- The `upvote` handler.  `resp` is the result of the `fn_upvote` remote
procedure (`Except` models the `{ data, error }` pair).  Returns the new
venue list together with the alert message shown on failure. -/
def upvote (venues : List Venue) (id : String) (resp : Except String ℤ) :
    List Venue × Option String :=
  match resp with
  | .error e => (venues, some e)
  | .ok newCount => (upvoteApply venues id newCount, none)

/-- CLAIM C3: a successful upvote patches exactly the venue(s) carrying the
target id, setting `reco_count` to the server-returned value and keeping
every other field and every other venue unchanged; no alert is raised. -/
theorem upvote_ok_patches_exactly (venues : List Venue) (id : String) (n : ℤ)
    (i : ℕ) :
    (upvote venues id (.ok n)).1[i]? =
        venues[i]?.map
          (fun v => if v.id = id then { v with reco_count := n } else v) ∧
      (upvote venues id (.ok n)).1.length = venues.length ∧
      (upvote venues id (.ok n)).2 = none := by
  refine ⟨?_, ?_, rfl⟩
  · simp [upvote, upvoteApply]
  · simp [upvote, upvoteApply]

/-- CLAIM C4: a failed upvote surfaces the backend error message and leaves
the venue list unchanged. -/
theorem upvote_error_leaves_state (venues : List Venue) (id : String)
    (msg : String) :
    upvote venues id (.error msg) = (venues, some msg) := rfl

/- ===== claims about the filter and the sort ===== -/

/-- The comparator-derived preorder is transitive. -/
theorem rowLE_trans (a b c : Row) : rowLE a b → rowLE b c → rowLE a c := by
  simp only [rowLE, Bool.or_eq_true, Bool.and_eq_true, decide_eq_true_eq,
    beq_iff_eq]
  omega

/-- The comparator-derived preorder is total. -/
theorem rowLE_total (a b : Row) : rowLE a b || rowLE b a := by
  simp only [rowLE, Bool.or_eq_true, Bool.and_eq_true, decide_eq_true_eq,
    beq_iff_eq]
  omega

/-- A row with a given underlying venue is in the filtered output exactly
when the venue itself is listed and the filter predicate admits its ETA. -/
theorem mem_filteredRows (venues : List Venue) (o : LatLng) (minutes : ℤ)
    (v : Venue) :
    (∃ r ∈ filteredRows venues o minutes, r.venue = v) ↔
      v ∈ venues ∧
        (etaSec (haversineKm o ⟨v.lat, v.lng⟩) .walk ≤ minutes * 60 ∨
          minutes ≥ 999) := by
  unfold filteredRows
  constructor
  · rintro ⟨r, hr, hrv⟩
    rw [List.mem_mergeSort, List.mem_filter] at hr
    rcases hr with ⟨hrows, hpred⟩
    rcases List.mem_map.mp hrows with ⟨v', hv', hmk⟩
    subst hmk
    cases hrv
    refine ⟨hv', ?_⟩
    simpa [mkRow] using hpred
  · rintro ⟨hv, hpred⟩
    refine ⟨mkRow o v, ?_, rfl⟩
    rw [List.mem_mergeSort, List.mem_filter]
    exact ⟨List.mem_map.mpr ⟨v, hv, rfl⟩, by simpa [mkRow] using hpred⟩

/-- CLAIM C1: with a non-null origin and the 15-minute budget, a listed
venue appears in the filtered list exactly when its ETA is at most 900
seconds; with the "15+" sentinel budget 999 every listed venue appears. -/
theorem filtered_budget_15_and_sentinel (venues : List Venue) (o : LatLng)
    (v : Venue) (hv : v ∈ venues) :
    ((∃ r ∈ filteredRows venues o 15, r.venue = v) ↔
        etaSec (haversineKm o ⟨v.lat, v.lng⟩) .walk ≤ 900) ∧
      (∃ r ∈ filteredRows venues o 999, r.venue = v) := by
  constructor
  · rw [mem_filteredRows]
    constructor
    · rintro ⟨_, h | h⟩
      · linarith
      · omega
    · intro h
      exact ⟨hv, Or.inl (by linarith)⟩
  · rw [mem_filteredRows]
    exact ⟨hv, Or.inr le_rfl⟩

/-- Witness for C1: a venue standing at the origin itself (ETA is the
60-second floor) is kept under the 15-minute budget and under the
sentinel. -/
theorem filtered_budget_15_and_sentinel_witness :
    ((∃ r ∈ filteredRows [⟨"v1", "n", none, none, 0, 22.9976, 120.2191⟩]
          ⟨22.9976, 120.2191⟩ 15, r.venue =
            (⟨"v1", "n", none, none, 0, 22.9976, 120.2191⟩ : Venue)) ↔
        etaSec
            (haversineKm ⟨22.9976, 120.2191⟩ ⟨22.9976, 120.2191⟩) .walk ≤
          900) ∧
      (∃ r ∈ filteredRows [⟨"v1", "n", none, none, 0, 22.9976, 120.2191⟩]
          ⟨22.9976, 120.2191⟩ 999, r.venue =
            (⟨"v1", "n", none, none, 0, 22.9976, 120.2191⟩ : Venue)) :=
  filtered_budget_15_and_sentinel _ _ _ (List.mem_singleton.mpr rfl)

/-- CLAIM C2: the filtered list is emitted in the comparator's order: along
the output, ETAs are non-decreasing, and between rows of equal ETA the
recommendation counts are non-increasing — equivalently, a strictly
smaller ETA always comes first, and on equal ETAs the strictly larger
`reco_count` comes first. -/
theorem filtered_sorted (venues : List Venue) (o : LatLng) (minutes : ℤ) :
    (filteredRows venues o minutes).Pairwise
      (fun a b =>
        a.etaS ≤ b.etaS ∧
          (a.etaS = b.etaS → b.venue.reco_count ≤ a.venue.reco_count)) := by
  unfold filteredRows
  refine List.Pairwise.imp ?_
    (List.sorted_mergeSort rowLE_trans rowLE_total _)
  intro a b hab
  simp only [rowLE, Bool.or_eq_true, Bool.and_eq_true, decide_eq_true_eq,
    beq_iff_eq] at hab
  omega

/- ===== custom origins in localStorage (src/App.tsx) ===== -/

/-- Parsed JSON value.  `localStorage` is modelled as holding the parsed
value of each entry: `JSON.parse ∘ JSON.stringify` is the identity on
objects of finite numbers, and JSON numbers always parse to finite doubles
(the grammar has no `NaN`/`Infinity` literals), so `jnum` carries `ℝ`. -/
inductive JVal where
  | jnull
  | jbool (b : Bool)
  | jnum (x : ℝ)
  | jstr (s : String)
  | jarr (elems : List JVal)
  | jobj (fields : List (String × JVal))

/-- Browser `localStorage`: a key/value map. -/
def Storage : Type := String → Option JVal

/-- `localStorage.setItem`. -/
def setItem (st : Storage) (k : String) (v : JVal) : Storage :=
  fun q => if q = k then some v else st q

/-- `localStorage.getItem`. -/
def getItem (st : Storage) (k : String) : Option JVal := st k

/-- A storage with no entries. -/
def emptyStorage : Storage := fun _ => none

/-- The two custom-origin slots, `type CustomKey = 'customA' | 'customB'`. -/
inductive CustomKey where
  | customA
  | customB
deriving DecidableEq

/-- The `localStorage` key `veg-origin:${key}`. -/
def CustomKey.storageKey : CustomKey → String
  | .customA => "veg-origin:customA"
  | .customB => "veg-origin:customB"

/-- JavaScript property access `obj?.k` on a parsed JSON value. -/
def jfield : JVal → String → Option JVal
  | .jobj fields, k => (fields.find? (fun p => p.1 == k)).map Prod.snd
  | _, _ => none

/-- `loadCustomPoint`: read `veg-origin:${key}`, parse, and return the
object when `lat` and `lng` are both numbers, otherwise `null`. -/
def loadCustomPoint (st : Storage) (key : CustomKey) : Option LatLng :=
  match getItem st key.storageKey with
  | none => none
  | some obj =>
    match jfield obj "lat", jfield obj "lng" with
    | some (.jnum la), some (.jnum ln) => some ⟨la, ln⟩
    | _, _ => none

/-- `saveCustomPoint`: store `JSON.stringify p` under `veg-origin:${key}`. -/
def saveCustomPoint (st : Storage) (key : CustomKey) (p : LatLng) : Storage :=
  setItem st key.storageKey (.jobj [("lat", .jnum p.lat), ("lng", .jnum p.lng)])

/-- The origin chips, `type OriginKey` over `QUICK_ORIGINS`. -/
inductive OriginKey where
  | my
  | kuangfu
  | chenggong
  | customA
  | customB
deriving DecidableEq

/-- The chip a custom slot belongs to. -/
def CustomKey.toOriginKey : CustomKey → OriginKey
  | .customA => .customA
  | .customB => .customB

/-- The origin-resolution effect (the `useEffect` on `originKey`): for `my`
the geolocation result is used; the two landmark chips yield their
hard-coded coordinates; a custom chip yields the stored point when one was
saved and otherwise the `{lat: 0, lng: 0}` placeholder left in
`QUICK_ORIGINS` (every entry other than `my` passes `isFixedOrigin`). -/
def resolveOrigin (st : Storage) (geo : Option LatLng) (k : OriginKey) :
    Option LatLng :=
  match k with
  | .my => geo
  | .kuangfu => some ⟨22.9976, 120.2191⟩
  | .chenggong => some ⟨22.9949, 120.2199⟩
  | .customA => some ((loadCustomPoint st .customA).getD ⟨0, 0⟩)
  | .customB => some ((loadCustomPoint st .customB).getD ⟨0, 0⟩)

/-- Saving then loading the same custom slot returns the saved point. -/
theorem loadCustomPoint_saveCustomPoint (st : Storage) (key : CustomKey)
    (p : LatLng) : loadCustomPoint (saveCustomPoint st key p) key = some p := by
  cases key <;> rfl

/-- CLAIM C7: the custom-origin round-trip: a saved point is read back
verbatim by `loadCustomPoint`, and re-selecting that chip resolves the
origin to the saved point (no prompt is involved on this path). -/
theorem custom_origin_roundtrip (st : Storage) (key : CustomKey) (p : LatLng)
    (geo : Option LatLng) :
    loadCustomPoint (saveCustomPoint st key p) key = some p ∧
      resolveOrigin (saveCustomPoint st key p) geo key.toOriginKey = some p := by
  refine ⟨loadCustomPoint_saveCustomPoint st key p, ?_⟩
  cases key <;>
    simp [resolveOrigin, CustomKey.toOriginKey,
      loadCustomPoint_saveCustomPoint st _ p]

/-- CLAIM C10: selecting a custom chip that was never written resolves the
origin to the `(0, 0)` placeholder, not to `null`, so the venue list goes
through the distance filter against `(0, 0)` instead of being returned
unfiltered. -/
theorem unsaved_custom_origin_is_zero (st : Storage) (geo : Option LatLng)
    (venues : List Venue) (minutes : ℤ)
    (hA : getItem st CustomKey.customA.storageKey = none)
    (hB : getItem st CustomKey.customB.storageKey = none) :
    resolveOrigin st geo .customA = some ⟨0, 0⟩ ∧
      resolveOrigin st geo .customB = some ⟨0, 0⟩ ∧
      filtered venues (resolveOrigin st geo .customA) minutes =
        Sum.inr (filteredRows venues ⟨0, 0⟩ minutes) := by
  have eA : resolveOrigin st geo .customA = some ⟨0, 0⟩ := by
    simp [resolveOrigin, loadCustomPoint, hA]
  have eB : resolveOrigin st geo .customB = some ⟨0, 0⟩ := by
    simp [resolveOrigin, loadCustomPoint, hB]
  exact ⟨eA, eB, by rw [eA]; rfl⟩

/-- Witness for C10 on the empty storage. -/
theorem unsaved_custom_origin_is_zero_witness :
    resolveOrigin emptyStorage none .customA = some ⟨0, 0⟩ ∧
      resolveOrigin emptyStorage none .customB = some ⟨0, 0⟩ ∧
      filtered [] (resolveOrigin emptyStorage none .customA) 15 =
        Sum.inr (filteredRows [] ⟨0, 0⟩ 15) :=
  unsaved_custom_origin_is_zero emptyStorage none [] 15 rfl rfl

/- ===== the origin finiteness invariant (C8) ===== -/

/-- JavaScript number including the non-finite values. -/
inductive JSNum where
  | num (x : ℝ)
  | nan
  | posInf
  | negInf

/-- `Number.isFinite`. -/
def JSNum.finite : JSNum → Bool
  | .num _ => true
  | _ => false

/-- A latitude/longitude pair whose components range over all JavaScript
numbers, for stating the finiteness invariant. -/
structure JSPoint where
  lat : JSNum
  lng : JSNum

/-- Injection of an ideal point into JavaScript numbers. -/
def toJS (p : LatLng) : JSPoint := ⟨.num p.lat, .num p.lng⟩

/-- Every event that assigns the `origin` state in `App.tsx`:
the two geolocation callbacks, the synchronous part of the origin-selection
effect, and the prompt-driven custom-point update (which `setOrigin`s only
when the chip being edited is currently selected). -/
inductive OriginEvent where
  | geoSuccess (lat lng : ℝ)
  | geoFailure
  | selectOrigin (st : Storage) (k : OriginKey)
  | promptCustom (key : CustomKey) (curKey : OriginKey) (latRaw lngRaw : JSNum)

/-- One `setOrigin` transition.  Geolocation coordinates are WGS84 doubles
(finite by the Geolocation API).  `promptCustom` carries the raw results of
`Number(prompt(...))`, which can be `NaN`; the code guards both with
`Number.isFinite` before saving and applying. -/
def stepOrigin (ev : OriginEvent) (cur : Option JSPoint) : Option JSPoint :=
  match ev with
  | .geoSuccess la ln => some ⟨.num la, .num ln⟩
  | .geoFailure => none
  | .selectOrigin st k =>
    match k with
    | .my => cur
    | .kuangfu => some (toJS ⟨22.9976, 120.2191⟩)
    | .chenggong => some (toJS ⟨22.9949, 120.2199⟩)
    | .customA => some (toJS ((loadCustomPoint st .customA).getD ⟨0, 0⟩))
    | .customB => some (toJS ((loadCustomPoint st .customB).getD ⟨0, 0⟩))
  | .promptCustom key curKey latRaw lngRaw =>
    if latRaw.finite && lngRaw.finite then
      if curKey = key.toOriginKey then some ⟨latRaw, lngRaw⟩ else cur
    else cur

/-- The invariant: the origin is absent or both components are finite. -/
def originOK (o : Option JSPoint) : Prop :=
  ∀ p ∈ o, p.lat.finite = true ∧ p.lng.finite = true

/-- CLAIM C8: the initial origin satisfies the invariant and every
origin-assigning operation preserves it: the origin is always `null` or a
complete pair of finite coordinates. -/
theorem origin_always_finite_or_none :
    originOK none ∧
      ∀ (ev : OriginEvent) (cur : Option JSPoint),
        originOK cur → originOK (stepOrigin ev cur) := by
  constructor
  · intro p hp
    simp at hp
  · intro ev cur hcur
    cases ev with
    | geoSuccess la ln =>
      intro p hp
      simp only [stepOrigin, Option.mem_def, Option.some_inj] at hp
      subst hp
      exact ⟨rfl, rfl⟩
    | geoFailure =>
      intro p hp
      simp [stepOrigin] at hp
    | selectOrigin st k =>
      cases k <;>
        first
          | exact hcur
          | (intro p hp
             simp only [stepOrigin, toJS, Option.mem_def, Option.some_inj] at hp
             subst hp
             exact ⟨rfl, rfl⟩)
    | promptCustom key curKey latRaw lngRaw =>
      intro p hp
      simp only [stepOrigin] at hp
      by_cases hfin : (latRaw.finite && lngRaw.finite) = true
      · rw [if_pos hfin] at hp
        simp only [Bool.and_eq_true] at hfin
        rcases hfin with ⟨h1, h2⟩
        by_cases hsel : curKey = key.toOriginKey
        · rw [if_pos hsel] at hp
          simp only [Option.mem_def, Option.some_inj] at hp
          subst hp
          exact ⟨h1, h2⟩
        · rw [if_neg hsel] at hp
          exact hcur p hp
      · rw [if_neg hfin] at hp
        exact hcur p hp

/-- Witness for C8: the geolocation-failure transition out of the initial
state keeps the invariant. -/
theorem origin_always_finite_or_none_witness :
    originOK (stepOrigin .geoFailure none) :=
  origin_always_finite_or_none.2 .geoFailure none
    origin_always_finite_or_none.1

/- ===== interval bounds for the C9 scenario ===== -/

/-- Multiplying the π interval `(3.141592, 3.141593)` by a non-negative
rational. -/
theorem pi_mul_bounds (c lo hi : ℝ) (hc : 0 ≤ c) (hlo : lo ≤ 3.141592 * c)
    (hhi : 3.141593 * c ≤ hi) : lo ≤ Real.pi * c ∧ Real.pi * c ≤ hi := by
  have h1 := mul_le_mul_of_nonneg_right Real.pi_gt_d6.le hc
  have h2 := mul_le_mul_of_nonneg_right Real.pi_lt_d6.le hc
  constructor <;> linarith

/-- Squeezing `sin x ^ 2` for a small positive `x` between rational bounds,
using `sin x ≤ x` and `x - x³/4 < sin x`. -/
theorem sin_sq_bounds (x lo hi lo2 hi2 : ℝ) (hlo : lo ≤ x) (hhi : x ≤ hi)
    (h0 : 0 < lo) (h1 : hi ≤ 1) (hcube : 0 ≤ lo - hi ^ 3 / 4)
    (hlo2 : lo2 ≤ (lo - hi ^ 3 / 4) ^ 2) (hhi2 : hi ^ 2 ≤ hi2) :
    lo2 ≤ Real.sin x ^ 2 ∧ Real.sin x ^ 2 ≤ hi2 := by
  have hx0 : 0 < x := lt_of_lt_of_le h0 hlo
  have hx1 : x ≤ 1 := le_trans hhi h1
  have hs_up : Real.sin x ≤ hi := le_trans (Real.sin_le hx0.le) hhi
  have hx3 : x ^ 3 ≤ hi ^ 3 := pow_le_pow_left hx0.le hhi 3
  have hs_lo : lo - hi ^ 3 / 4 ≤ Real.sin x := by
    have h := Real.sin_gt_sub_cube hx0 hx1
    linarith
  have hsin0 : 0 ≤ Real.sin x := le_trans hcube hs_lo
  refine ⟨le_trans hlo2 ?_, le_trans ?_ hhi2⟩
  · nlinarith
  · nlinarith

/-- Squeezing `cos x` for `x ∈ [0, 1]` between rational bounds via the
quartic Taylor estimate `cos_bound`. -/
theorem cos_bounds_interval (x lo hi cl ch : ℝ) (hlo : lo ≤ x) (hhi : x ≤ hi)
    (h0 : 0 ≤ lo) (h1 : hi ≤ 1)
    (hcl : cl ≤ 1 - hi ^ 2 / 2 - hi ^ 4 * (5 / 96))
    (hch : 1 - lo ^ 2 / 2 + hi ^ 4 * (5 / 96) ≤ ch) :
    cl ≤ Real.cos x ∧ Real.cos x ≤ ch := by
  have hx0 : 0 ≤ x := le_trans h0 hlo
  have habs : |x| ≤ 1 := by rw [abs_of_nonneg hx0]; exact le_trans hhi h1
  have hb := Real.cos_bound habs
  rw [abs_of_nonneg hx0, abs_le] at hb
  have hx2l : lo ^ 2 ≤ x ^ 2 := pow_le_pow_left h0 hlo 2
  have hx2h : x ^ 2 ≤ hi ^ 2 := pow_le_pow_left hx0 hhi 2
  have hx4 : x ^ 4 ≤ hi ^ 4 := pow_le_pow_left hx0 hhi 4
  constructor
  · linarith [hb.1]
  · linarith [hb.2]

/-- On `[0, 1]`, `arcsin` dominates the identity. -/
theorem arcsin_ge_self (x : ℝ) (h0 : 0 ≤ x) (h1 : x ≤ 1) :
    x ≤ Real.arcsin x := by
  have h := Real.sin_le (Real.arcsin_nonneg.mpr h0)
  rwa [Real.sin_arcsin (by linarith) h1] at h

/-- An upper bound for `arcsin` from a lower bound on `sin`. -/
theorem arcsin_le_bound (q u : ℝ) (hq : q ≤ Real.sin u) (hu0 : 0 ≤ u)
    (hu : u ≤ Real.pi / 2) : Real.arcsin q ≤ u := by
  have h := Real.monotone_arcsin hq
  rwa [Real.arcsin_sin (by linarith [Real.pi_pos]) hu] at h

set_option maxHeartbeats 1600000 in
/-- The haversine distance between the two hard-coded landmarks
(光復門 at `(22.9976, 120.2191)` and 成功門 at `(22.9949, 120.2199)`) lies in
`[0.3111, 0.3113]` km. -/
theorem hav_scenario_bounds :
    0.3111 ≤ haversineKm ⟨22.9976, 120.2191⟩ ⟨22.9949, 120.2199⟩ ∧
      haversineKm ⟨22.9976, 120.2191⟩ ⟨22.9949, 120.2199⟩ ≤ 0.3113 := by
  have hs_eq : haversineKm ⟨22.9976, 120.2191⟩ ⟨22.9949, 120.2199⟩ =
      12742 * Real.arcsin (Real.sqrt
        (Real.sin (Real.pi * (3 / 400000)) ^ 2 +
          Real.cos (Real.pi * (28747 / 225000)) *
              Real.cos (Real.pi * (229949 / 1800000)) *
            Real.sin (Real.pi * (1 / 450000)) ^ 2)) := by
    simp only [haversineKm, toRad]
    rw [show ((22.9949 : ℝ) - 22.9976) * Real.pi / 180 / 2 =
        -(Real.pi * (3 / 400000)) by ring]
    rw [show ((120.2199 : ℝ) - 120.2191) * Real.pi / 180 / 2 =
        Real.pi * (1 / 450000) by ring]
    rw [show (22.9976 : ℝ) * Real.pi / 180 = Real.pi * (28747 / 225000) by ring]
    rw [show (22.9949 : ℝ) * Real.pi / 180 = Real.pi * (229949 / 1800000) by ring]
    rw [Real.sin_neg, neg_sq]
    ring
  rw [hs_eq]
  obtain ⟨h27l, h27h⟩ := pi_mul_bounds (3 / 400000) 0.00002356194
    0.0000235619475 (by norm_num) (by norm_num) (by norm_num)
  obtain ⟨h08l, h08h⟩ := pi_mul_bounds (1 / 450000) 0.0000069813155
    0.0000069813178 (by norm_num) (by norm_num) (by norm_num)
  obtain ⟨hAl, hAh⟩ := pi_mul_bounds (28747 / 225000) 0.40138375 0.4013839
    (by norm_num) (by norm_num) (by norm_num)
  obtain ⟨hBl, hBh⟩ := pi_mul_bounds (229949 / 1800000) 0.40133663 0.40133677
    (by norm_num) (by norm_num) (by norm_num)
  obtain ⟨hs27l, hs27h⟩ := sin_sq_bounds (Real.pi * (3 / 400000)) 0.00002356194
    0.0000235619475 5.55164915e-10 5.5516537e-10 h27l h27h (by norm_num)
    (by norm_num) (by norm_num) (by norm_num) (by norm_num)
  obtain ⟨hs08l, hs08h⟩ := sin_sq_bounds (Real.pi * (1 / 450000)) 0.0000069813155
    0.0000069813178 4.87387647e-11 4.87387983e-11 h08l h08h (by norm_num)
    (by norm_num) (by norm_num) (by norm_num) (by norm_num)
  obtain ⟨hcAl, hcAh⟩ := cos_bounds_interval (Real.pi * (28747 / 225000))
    0.40138375 0.4013839 0.918093 0.920798 hAl hAh (by norm_num) (by norm_num)
    (by norm_num) (by norm_num)
  obtain ⟨hcBl, hcBh⟩ := cos_bounds_interval (Real.pi * (229949 / 1800000))
    0.40133663 0.40133677 0.918113 0.920816 hBl hBh (by norm_num) (by norm_num)
    (by norm_num) (by norm_num)
  set s27 := Real.sin (Real.pi * (3 / 400000)) ^ 2
  set s08 := Real.sin (Real.pi * (1 / 450000)) ^ 2
  set cA := Real.cos (Real.pi * (28747 / 225000))
  set cB := Real.cos (Real.pi * (229949 / 1800000))
  have hcA0 : (0:ℝ) ≤ cA := by linarith
  have hcB0 : (0:ℝ) ≤ cB := by linarith
  have hs080 : (0:ℝ) ≤ s08 := by positivity
  have hP_l : (0.918093 : ℝ) * 0.918113 ≤ cA * cB :=
    mul_le_mul hcAl hcBl (by norm_num) hcA0
  have hP_h : cA * cB ≤ 0.920798 * 0.920816 :=
    mul_le_mul hcAh hcBh hcB0 (by norm_num)
  have hT_l : (0.918093 : ℝ) * 0.918113 * 4.87387647e-11 ≤ cA * cB * s08 :=
    mul_le_mul hP_l hs08l (by norm_num) (le_trans (by norm_num) hP_l)
  have hT_h : cA * cB * s08 ≤ 0.920798 * 0.920816 * 4.87387983e-11 :=
    mul_le_mul hP_h hs08h hs080 (by norm_num)
  have hSl : (5.962474e-10 : ℝ) ≤ s27 + cA * cB * s08 := by linarith
  have hSh : s27 + cA * cB * s08 ≤ 5.9649075e-10 := by linarith
  set S := s27 + cA * cB * s08 with hSdef
  have hq_l : (0.000024418 : ℝ) ≤ Real.sqrt S := by
    rw [Real.le_sqrt (by norm_num) (by linarith)]
    have hc : ((0.000024418 : ℝ)) ^ 2 ≤ 5.962474e-10 := by norm_num
    linarith
  have hq_h : Real.sqrt S ≤ 0.0000244233 := by
    have hc : (5.9649075e-10 : ℝ) ≤ (0.0000244233 : ℝ) ^ 2 := by norm_num
    have h := Real.sqrt_le_sqrt (show S ≤ (0.0000244233 : ℝ) ^ 2 by linarith)
    rwa [Real.sqrt_sq (by norm_num)] at h
  have ha_l : (0.000024418 : ℝ) ≤ Real.arcsin (Real.sqrt S) :=
    le_trans hq_l (arcsin_ge_self _ (Real.sqrt_nonneg _) (by linarith))
  have ha_h : Real.arcsin (Real.sqrt S) ≤ 0.0000244237 := by
    refine arcsin_le_bound _ _ ?_ (by norm_num) ?_
    · have h := Real.sin_gt_sub_cube (show (0:ℝ) < 0.0000244237 by norm_num)
        (by norm_num)
      have hc : (0.0000244233 : ℝ) ≤ 0.0000244237 - 0.0000244237 ^ 3 / 4 := by
        norm_num
      linarith
    · linarith [Real.pi_gt_d6]
  constructor <;> linarith

/-- The walking ETA between the two landmarks is exactly 249 seconds. -/
theorem etaSec_scenario_eq :
    etaSec (haversineKm ⟨22.9976, 120.2191⟩ ⟨22.9949, 120.2199⟩) .walk = 249 := by
  obtain ⟨h1, h2⟩ := hav_scenario_bounds
  set d := haversineKm ⟨22.9976, 120.2191⟩ ⟨22.9949, 120.2199⟩
  unfold etaSec mathRound
  simp only [Mode.speed]
  have e : d / 4.5 * 3600 = d * 800 := by ring
  have hfl : ⌊d / 4.5 * 3600 + 1 / 2⌋ = (249 : ℤ) := by
    rw [Int.floor_eq_iff, e]
    constructor
    · push_cast
      linarith
    · push_cast
      linarith
  rw [hfl]
  norm_num

/-- CLAIM C9 (counterexample): the ETA between the two landmarks is not the
246 seconds stated in the specification. -/
theorem scenario_eta_not_246 :
    etaSec (haversineKm ⟨22.9976, 120.2191⟩ ⟨22.9949, 120.2199⟩) .walk ≠ 246 := by
  rw [etaSec_scenario_eq]
  decide

/-- CLAIM C9 (amended): for origin `(22.9976, 120.2191)` and a venue at
`(22.9949, 120.2199)` in walking mode, the haversine distance is ≈ 0.311 km
(not 0.307), the ETA is `max(60, round(d/4.5*3600)) = 249` seconds (not
246), it is displayed as "4 分", and the venue passes the filter under each
of the 10-minute, 15-minute and "15+" budgets. -/
theorem scenario_amended :
    0.3111 ≤ haversineKm ⟨22.9976, 120.2191⟩ ⟨22.9949, 120.2199⟩ ∧
      haversineKm ⟨22.9976, 120.2191⟩ ⟨22.9949, 120.2199⟩ ≤ 0.3113 ∧
      etaSec (haversineKm ⟨22.9976, 120.2191⟩ ⟨22.9949, 120.2199⟩) .walk = 249 ∧
      formatEta
          ((etaSec (haversineKm ⟨22.9976, 120.2191⟩ ⟨22.9949, 120.2199⟩) .walk :
            ℤ) : ℝ) = "4 分" ∧
      (∃ r ∈ filteredRows [⟨"v1", "n", none, none, 0, 22.9949, 120.2199⟩]
          ⟨22.9976, 120.2191⟩ 10, r.venue =
            (⟨"v1", "n", none, none, 0, 22.9949, 120.2199⟩ : Venue)) ∧
      (∃ r ∈ filteredRows [⟨"v1", "n", none, none, 0, 22.9949, 120.2199⟩]
          ⟨22.9976, 120.2191⟩ 15, r.venue =
            (⟨"v1", "n", none, none, 0, 22.9949, 120.2199⟩ : Venue)) ∧
      (∃ r ∈ filteredRows [⟨"v1", "n", none, none, 0, 22.9949, 120.2199⟩]
          ⟨22.9976, 120.2191⟩ 999, r.venue =
            (⟨"v1", "n", none, none, 0, 22.9949, 120.2199⟩ : Venue)) := by
  obtain ⟨h1, h2⟩ := hav_scenario_bounds
  have heta := etaSec_scenario_eq
  have hmem : (⟨"v1", "n", none, none, 0, 22.9949, 120.2199⟩ : Venue) ∈
      [(⟨"v1", "n", none, none, 0, 22.9949, 120.2199⟩ : Venue)] :=
    List.mem_singleton.mpr rfl
  have hfmt : formatEta ((249 : ℤ) : ℝ) = "4 分" := by
    unfold formatEta mathRound
    have hm : ⌊((249 : ℤ) : ℝ) / 60 + 1 / 2⌋ = (4 : ℤ) := by
      rw [Int.floor_eq_iff]
      constructor
      · push_cast
        linarith
      · push_cast
        linarith
    rw [hm]
    rw [if_neg (by norm_num : ¬ (4:ℤ) ≤ 1)]
    rfl
  refine ⟨h1, h2, heta, by rw [heta]; exact hfmt, ?_, ?_, ?_⟩ <;>
    · rw [mem_filteredRows]
      refine ⟨hmem, ?_⟩
      rw [heta]
      norm_num

end VegWeb
